import Mathlib

/-!
Verification of the Food Affordability dashboard (`Dashboard/dashb.py`).

The dashboard loads four CSV tables, routes on a sidebar selector to one of
four render routines, and computes its charts with pandas groupby / pivot /
pct_change operations.  We embed the tables as lists of row structures,
prices as rationals, and pandas missing values (NaN) as `Option`:
`none` is NaN.  `pct_change` on a column is modelled pointwise; a division
whose denominator is zero (or whose operands are missing) yields `none`,
matching the float NaN the library would produce on the data in scope.
-/

namespace FoodDash

/-- One row of `food_afford.csv` (loaded without date parsing, so the
date is kept as a raw string, as pandas does). Columns:
Item, Date, Price_per_kg_or_litre, Tag. -/
structure FRow where
  item : String
  date : String
  price : ℚ
  tag : String
  deriving DecidableEq, Repr

/-- One row of `affordability_final.csv`, whose `Date` column is parsed
as a calendar date (we keep year and month; the data is monthly).
Columns: Date, Basket_Cost_Euro, Affordability_Ratio, Affordability_Index. -/
structure ARow where
  year : Nat
  month : Nat
  basket : ℚ
  share : ℚ
  affIdx : ℚ
  deriving DecidableEq, Repr

/-- The metric radio of the Category view: `st.radio(..., ["Mean", "Median"])`. -/
inductive Metric | mean | median
  deriving DecidableEq, Repr

/-- The granularity radio of the Affordability view:
`st.radio(..., ["Monthly", "Annual"])`. -/
inductive Gran | monthly | annual
  deriving DecidableEq, Repr

/-- The four render routines of the dashboard. -/
inductive Routine | home | itemLevel | categoryLevel | affordability
  deriving DecidableEq, Repr

/-! ### View router

The bottom of `dashb.py` dispatches on the selector value with a plain
`if/elif` chain and no `else` branch: an unrecognized value runs nothing. -/

/-- The `if view == ... / elif ...` chain at the bottom of `dashb.py`:
`some r` means routine `r` runs, `none` means no routine runs. -/
def dispatchView (view : String) : Option Routine :=
  if view = "Project Overview" then some Routine.home
  else if view = "Item-Level Analysis" then some Routine.itemLevel
  else if view = "Category-Level Analysis" then some Routine.categoryLevel
  else if view = "Affordability Overview" then some Routine.affordability
  else none

/-- The four labels offered by the sidebar `selectbox`. -/
def viewLabels : List String :=
  ["Project Overview", "Item-Level Analysis",
   "Category-Level Analysis", "Affordability Overview"]

/-! ### Generic tabular helpers (pandas operations) -/

/-- pandas `Series.mean` on a group (groups are nonempty, so no NaN). -/
def listMean (l : List ℚ) : ℚ := l.sum / l.length

/-- `List.insertionSort` by `≤` gives ascending order; rationals. -/
def sortQ (l : List ℚ) : List ℚ := l.insertionSort (fun a b => a ≤ b)

/-- pandas `Series.median` on a group: sort, middle element for odd length,
mean of the two middle elements for even length. -/
def listMedian (l : List ℚ) : ℚ :=
  let s := sortQ l
  let n := s.length
  if n % 2 = 1 then s.getD (n / 2) 0
  else (s.getD (n / 2 - 1) 0 + s.getD (n / 2) 0) / 2

/-- pandas `Series.pct_change(periods=k)` on a column with holes:
entry `i` is `(l[i] - l[i-k]) / l[i-k]` when both cells are present and the
denominator is nonzero, and missing (NaN) otherwise — in particular the
first `k` entries are always missing. -/
def pctChange (k : Nat) (l : List (Option ℚ)) : List (Option ℚ) :=
  (List.range l.length).map (fun i =>
    if k ≤ i then
      match l.getD (i - k) none, l.getD i none with
      | some p, some c => if p = 0 then none else some ((c - p) / p)
      | _, _ => none
    else none)

/-- Multiply a possibly-missing value by 100 (`* 100` broadcast over NaN). -/
def times100 (l : List (Option ℚ)) : List (Option ℚ) :=
  l.map (Option.map (· * 100))

/-- Lexicographic strict order on character lists by code point. -/
def lexLt : List Char → List Char → Bool
  | [], [] => false
  | [], _ :: _ => true
  | _ :: _, [] => false
  | a :: as, b :: bs => if a = b then lexLt as bs else decide (a.val.toNat < b.val.toNat)

/-- Strict lexicographic order on strings (code points, as Python sorts). -/
def strLtB (a b : String) : Bool := lexLt a.data b.data

/-- Non-strict lexicographic order on strings. -/
def strLeB (a b : String) : Bool := strLtB a b || a == b

/-- Ascending sort of the distinct keys of a column under a comparator,
as pandas `groupby(..., sort=True)` orders the groups. -/
def sortedKeys [DecidableEq κ] (le : κ → κ → Bool) (l : List κ) : List κ :=
  l.dedup.insertionSort (fun a b => le a b = true)

/-! ### Item-Level render routine (`render_item_level`)

`item_data = food[food['Item'] == item_selected]`, a line chart of
`(Date, Price_per_kg_or_litre)` on it, then per-item std-dev and mean
rankings with `head(5)` / `tail(5)` extracts. -/

/-- `food[food['Item'] == sel]`: row filter, order preserved. -/
def itemData (food : List FRow) (sel : String) : List FRow :=
  food.filter (fun r => r.item = sel)

/-- The `(Date, Price)` points of the item chart, taken from `item_data`. -/
def itemSeries (food : List FRow) (sel : String) : List (String × ℚ) :=
  (itemData food sel).map (fun r => (r.date, r.price))

/-- The price column of the group of `sel` under `food.groupby('Item')`. -/
def pricesOf (food : List FRow) (k : String) : List ℚ :=
  (food.filter (fun r => r.item = k)).map (fun r => r.price)

/-- The distinct items, in the ascending order pandas `groupby` uses. -/
def itemKeys (food : List FRow) : List String :=
  sortedKeys strLeB (food.map (fun r => r.item))

/-- pandas `Series.std()` with the default `ddof=1`: NaN (`none`) on fewer
than two observations.  The ranking key: we rank by the sample variance,
which orders identically to the standard deviation (square root is
monotone on nonnegatives) and is NaN for exactly the same groups, and
which stays inside `ℚ`. -/
def sampleVar (l : List ℚ) : Option ℚ :=
  if l.length < 2 then none
  else some ((l.map (fun x => (x - listMean l) ^ 2)).sum / ((l.length - 1 : ℕ) : ℚ))

/-- pandas `Series.mean()` on a group: NaN only on an empty group. -/
def groupMean (l : List ℚ) : Option ℚ :=
  if l = [] then none else some (listMean l)

/-- `sort_values(ascending=False)` comparison key on possibly-NaN values:
descending on numbers, NaN (`none`) after everything (`na_position='last'`),
order preserved inside the NaN block. -/
def rankGe (a b : Option ℚ) : Bool :=
  match a, b with
  | _, none => true
  | none, some _ => false
  | some u, some v => v ≤ u

/-- The sort relation on `(item, value)` rows: compare by value only. -/
def rankRel (a b : String × Option ℚ) : Prop := rankGe a.2 b.2 = true

instance : DecidableRel rankRel := fun _ _ => instDecidableEqBool _ _

instance : IsTotal (String × Option ℚ) rankRel :=
  ⟨by
    intro a b
    obtain ⟨_, x⟩ := a; obtain ⟨_, y⟩ := b
    cases x <;> cases y <;> simp [rankRel, rankGe]
    exact le_total _ _⟩

instance : IsTrans (String × Option ℚ) rankRel :=
  ⟨by
    intro a b c hab hbc
    obtain ⟨_, x⟩ := a; obtain ⟨_, y⟩ := b; obtain ⟨_, z⟩ := c
    cases x <;> cases y <;> cases z <;>
      simp_all [rankRel, rankGe]
    exact le_trans hbc hab⟩

/-- `sort_values(ascending=False)` on an `(item, value)` series. -/
def sortRank (l : List (String × Option ℚ)) : List (String × Option ℚ) :=
  l.insertionSort rankRel

/-- `groupby('Item')['Price_per_kg_or_litre'].std().sort_values(ascending=False)`. -/
def volatilityRanking (food : List FRow) : List (String × Option ℚ) :=
  sortRank ((itemKeys food).map (fun k => (k, sampleVar (pricesOf food k))))

/-- `groupby("Item")["Price_per_kg_or_litre"].mean().sort_values(ascending=False)`. -/
def avgPriceRanking (food : List FRow) : List (String × Option ℚ) :=
  sortRank ((itemKeys food).map (fun k => (k, groupMean (pricesOf food k))))

/-- pandas `.head(5)`. -/
def take5 (l : List α) : List α := l.take 5

/-- pandas `.tail(5)`: the last five rows, in order. -/
def tail5 (l : List α) : List α := l.drop (l.length - 5)

/-! ### Category-Level render routine (`render_Category_level_Analysis`)

`monthly_stats = food.groupby(['Date','Tag'])['Price_per_kg_or_litre']
.agg(['mean','median']).reset_index()`, a projection to the selected
metric, a pivot keyed by Tag, `pct_change(periods=12) * 100`, a melt back
to long form, and a hardcoded summary table. -/

/-- The price column of the `(Date, Tag)` group. -/
def rowsFor (food : List FRow) (d t : String) : List ℚ :=
  (food.filter (fun r => r.date = d ∧ r.tag = t)).map (fun r => r.price)

/-- The aggregation selected by the metric radio. -/
def aggOf : Metric → List ℚ → ℚ
  | Metric.mean => listMean
  | Metric.median => listMedian

/-- Lexicographic comparator on `(Date, Tag)` keys, as pandas orders the
groups of a two-column groupby. -/
def pairLeB (a b : String × String) : Bool :=
  if a.1 = b.1 then strLeB a.2 b.2 else strLtB a.1 b.1

/-- The distinct `(Date, Tag)` pairs, in groupby order. -/
def pairKeys (food : List FRow) : List (String × String) :=
  sortedKeys pairLeB (food.map (fun r => (r.date, r.tag)))

/-- `monthly_stats`: one row per `(Date, Tag)` group with the group's
mean (`Monthly_Mean`) and median (`Monthly_Median`). -/
def monthlyStats (food : List FRow) : List ((String × String) × ℚ × ℚ) :=
  (pairKeys food).map
    (fun k => (k, listMean (rowsFor food k.1 k.2), listMedian (rowsFor food k.1 k.2)))

/-- Select `Monthly_Mean` or `Monthly_Median` from a stats row. -/
def metricVal (m : Metric) (v : ℚ × ℚ) : ℚ :=
  match m with
  | Metric.mean => v.1
  | Metric.median => v.2

/-- `monthly_filtered`: the `['Date', 'Tag', metric_col]` projection of
`monthly_stats`, which the pivot also consumes as `(key, value)` rows. -/
def monthlyFiltered (m : Metric) (food : List FRow) : List ((String × String) × ℚ) :=
  (monthlyStats food).map (fun p => (p.1, metricVal m p.2))

/-- The pivot's row index: the distinct dates, ascending. -/
def dateIndex (food : List FRow) : List String :=
  sortedKeys strLeB (food.map (fun r => r.date))

/-- The pivot's columns: the distinct tags, ascending. -/
def tagCols (food : List FRow) : List String :=
  sortedKeys strLeB (food.map (fun r => r.tag))

/-- One pivot cell: the aggregated price of the `(d, t)` group, NaN when
the pair never occurs. -/
def pivotCell (m : Metric) (food : List FRow) (d t : String) : Option ℚ :=
  if rowsFor food d t = [] then none else some (aggOf m (rowsFor food d t))

/-- One Tag column of the pivoted frame, over the full date index. -/
def pivotColumn (m : Metric) (food : List FRow) (t : String) : List (Option ℚ) :=
  (dateIndex food).map (fun d => pivotCell m food d t)

/-- `pivot.pct_change(periods=12) * 100` on one Tag column. -/
def categoryYoY (m : Metric) (food : List FRow) (t : String) : List (Option ℚ) :=
  times100 (pctChange 12 (pivotColumn m food t))

/-- `yoy_long`: the melt of the YoY frame back to long form
(column-major, as `melt` stacks the Tag columns). -/
def yoyLong (m : Metric) (food : List FRow) : List (String × String × Option ℚ) :=
  (tagCols food).flatMap
    (fun t => ((dateIndex food).zip (categoryYoY m food t)).map (fun p => (p.1, t, p.2)))

/-- Cell lookup in `(key, value)` rows of a pivot input. -/
def lookupPair (rows : List ((String × String) × ℚ)) (d t : String) : Option ℚ :=
  (rows.find? (fun p => p.1 = (d, t))).map (fun p => p.2)

/-- The wide table `pivot` builds when its key-uniqueness precondition
holds: one column per distinct tag over the distinct-date index. -/
def pivotTable (rows : List ((String × String) × ℚ)) : List (String × List (Option ℚ)) :=
  (sortedKeys strLeB (rows.map (fun p => p.1.2))).map
    (fun t => (t, (sortedKeys strLeB (rows.map (fun p => p.1.1))).map
      (fun d => lookupPair rows d t)))

/-- pandas `DataFrame.pivot`: raises `ValueError` (modelled as `none`) when
the `(index, columns)` pairs contain a duplicate, and otherwise builds the
wide table. -/
def pivotOrRaise (rows : List ((String × String) × ℚ)) :
    Option (List (String × List (Option ℚ))) :=
  if (rows.map Prod.fst).Nodup then some (pivotTable rows) else none

/-- The hardcoded `summary_data` dict of the nutrition summary table:
column name to column of literal strings. -/
def summary_data : List (String × List String) :=
  [("Category", ["Healthy", "Neutral", "Unhealthy"]),
   ("Mean Price", ["€7.52", "€6.53", "€6.45"]),
   ("Median Price (50%)", ["€3.65", "€2.20", "€5.27"]),
   ("Skew (Mean > Median?)", ["High", "Very High", "Low"]),
   ("Price Stability (std)", ["Medium (7.01)", "High (9.64)", "Stable (5.40)"])]

/-- The data-bearing outputs of the Category-Level routine. -/
structure CategoryOutput where
  priceChart : List ((String × String) × ℚ)
  yoyChart : List (String × String × Option ℚ)
  summary : List (String × List String)

/-- The Category-Level routine as a function of its inputs: the charts are
computed from the food table, the summary table is the baked-in literal. -/
def renderCategoryOutput (m : Metric) (food : List FRow) : CategoryOutput :=
  { priceChart := monthlyFiltered m food
    yoyChart := yoyLong m food
    summary := summary_data }

/-! ### Affordability render routine (`render_affordability`)

Monthly branch: `monthly_yoy = afford.copy()` plus a
`pct_change(periods=12) * 100` column, charted through `.dropna()`.
Annual branch: `groupby(afford['Date'].dt.year)` mean, its
`pct_change() * 100`, and the groupby sum. -/

/-- `monthly_yoy["Monthly_YoY_%"]`: `pct_change(periods=12) * 100` on the
basket-cost column (every cell of the loaded column is present). -/
def monthlyYoYCol (aff : List ARow) : List (Option ℚ) :=
  times100 (pctChange 12 (aff.map (fun r => some r.basket)))

/-- The `monthly_yoy` frame: the affordability rows with the new column. -/
def monthlyYoYFrame (aff : List ARow) : List (ARow × Option ℚ) :=
  aff.zip (monthlyYoYCol aff)

/-- `monthly_yoy.dropna()`: the charted series — rows holding a NaN cell
are removed entirely, not kept as gaps. -/
def monthlyYoYCharted (aff : List ARow) : List (ARow × ℚ) :=
  (monthlyYoYFrame aff).filterMap (fun p => p.2.map (fun y => (p.1, y)))

/-- The distinct years, ascending, as `groupby(afford['Date'].dt.year)`
orders its groups. -/
def yearKeys (aff : List ARow) : List ℕ :=
  sortedKeys (fun a b => Nat.ble a b) (aff.map (fun r => r.year))

/-- The basket-cost column of one year's group. -/
def basketsInYear (aff : List ARow) (y : ℕ) : List ℚ :=
  (aff.filter (fun r => r.year = y)).map (fun r => r.basket)

/-- `yearly_avg`: mean basket cost per calendar year. -/
def yearlyAvg (aff : List ARow) : List (ℕ × ℚ) :=
  (yearKeys aff).map (fun y => (y, listMean (basketsInYear aff y)))

/-- `yearly_avg["YoY Change (%)"]`: `pct_change() * 100` (1-period lag,
the series being already annual) on the annual means. -/
def yearlyAvgYoY (aff : List ARow) : List (Option ℚ) :=
  times100 (pctChange 1 ((yearlyAvg aff).map (fun p => some p.2)))

/-- `yearly_total`: summed basket cost per calendar year. -/
def yearlyTotal (aff : List ARow) : List (ℕ × ℚ) :=
  (yearKeys aff).map (fun y => (y, (basketsInYear aff y).sum))

/-- `annual_index`: mean affordability index per calendar year. -/
def annualIndex (aff : List ARow) : List (ℕ × ℚ) :=
  (yearKeys aff).map
    (fun y => (y, listMean ((aff.filter (fun r => r.year = y)).map (fun r => r.affIdx))))

/-- A synthetic 24-month table: twelve 2014 months of basket cost `a`,
then twelve 2015 months of basket cost `b`. -/
def twoYearMonthly (a b : ℚ) : List ARow :=
  ((List.range 12).map (fun i => ⟨2014, i + 1, a, 0, 0⟩)) ++
  ((List.range 12).map (fun i => ⟨2015, i + 1, b, 0, 0⟩))

/-! ### Heap model of the render routines' frame assignments

Each render routine is run over an explicit heap of live DataFrames (an
index is a reference).  A fresh name bound to a derived frame is an
allocation; an in-place operation — a column assignment such as
`monthly_yoy["Monthly_YoY_%"] = ...` or a `df.columns = [...]` rename — is
a store through the frame's reference.  `monthly_yoy = afford.copy()`
allocates (the copy), so the later store hits the copy, not the loaded
table. -/

/-- A DataFrame value in the script's heap: the typed rows of each frame
shape a routine builds. -/
inductive PFrame
  | affordT (rows : List ARow)
  | foodT (rows : List FRow)
  | rawT (rows : List (List String))
  | monthlyYoYT (rows : List (ARow × Option ℚ))
  | yearT (rows : List (ℕ × ℚ))
  | yearYoYT (rows : List ((ℕ × ℚ) × Option ℚ))
  | statsT (rows : List ((String × String) × ℚ × ℚ))
  | projT (rows : List ((String × String) × ℚ))
  | pivotT (rows : List (String × List (Option ℚ)))
  | rankT (rows : List (String × Option ℚ))
  | longT (rows : List (String × String × Option ℚ))
  | litT (rows : List (String × List String))

/-- The heap of live frames. -/
abbrev Heap := List PFrame

/-- Bind a fresh name to a new frame object. -/
def Heap.alloc (h : Heap) (f : PFrame) : Heap × ℕ := (h ++ [f], h.length)

/-- Write through an existing reference (in-place column add or rename). -/
def Heap.store (h : Heap) (i : ℕ) (f : PFrame) : Heap := h.set i f

/-- Read a reference. -/
def Heap.read (h : Heap) (i : ℕ) : Option PFrame := h[i]?

/-- The affordability rows a reference designates. -/
def affordRowsAt (h : Heap) (i : ℕ) : List ARow :=
  match Heap.read h i with
  | some (PFrame.affordT rows) => rows
  | _ => []

/-- The food rows a reference designates. -/
def foodRowsAt (h : Heap) (i : ℕ) : List FRow :=
  match Heap.read h i with
  | some (PFrame.foodT rows) => rows
  | _ => []

/-- `render_home`: static text only, no frame operation at all. -/
def renderHomeHeap (h : Heap) : Heap := h

/-- `render_item_level`: `item_data`, the volatility series with its two
extracts, and the average-price series with its two extracts are all fresh
frames; nothing is written through an existing reference. -/
def renderItemLevelHeap (sel : String) (foodRef : ℕ) (h : Heap) : Heap :=
  let food := foodRowsAt h foodRef
  let s1 := Heap.alloc h (PFrame.foodT (itemData food sel))
  let s2 := Heap.alloc s1.1 (PFrame.rankT (volatilityRanking food))
  let s3 := Heap.alloc s2.1 (PFrame.rankT (take5 (volatilityRanking food)))
  let s4 := Heap.alloc s3.1 (PFrame.rankT (tail5 (volatilityRanking food)))
  let s5 := Heap.alloc s4.1 (PFrame.rankT (avgPriceRanking food))
  let s6 := Heap.alloc s5.1 (PFrame.rankT (take5 (avgPriceRanking food)))
  let s7 := Heap.alloc s6.1 (PFrame.rankT (tail5 (avgPriceRanking food)))
  s7.1

/-- `render_Category_level_Analysis`: `monthly_stats`, the metric
projection, the pivot, the melted YoY frame and the literal summary table
are all fresh frames. -/
def renderCategoryHeap (m : Metric) (foodRef : ℕ) (h : Heap) : Heap :=
  let food := foodRowsAt h foodRef
  let s1 := Heap.alloc h (PFrame.statsT (monthlyStats food))
  let s2 := Heap.alloc s1.1 (PFrame.projT (monthlyFiltered m food))
  let s3 := Heap.alloc s2.1 (PFrame.pivotT (pivotTable (monthlyFiltered m food)))
  let s4 := Heap.alloc s3.1 (PFrame.longT (yoyLong m food))
  let s5 := Heap.alloc s4.1 (PFrame.litT summary_data)
  s5.1

/-- `render_affordability`.  Monthly: `monthly_yoy = afford.copy()`
allocates, then the YoY column assignment stores through the copy's
reference.  Annual: `yearly_avg`, `yearly_total` and `annual_index` are
fresh groupby results, each then renamed or extended in place through its
own reference. -/
def renderAffordabilityHeap (g : Gran) (affRef : ℕ) (h : Heap) : Heap :=
  let aff := affordRowsAt h affRef
  match g with
  | Gran.monthly =>
    let s1 := Heap.alloc h (PFrame.affordT aff)
    Heap.store s1.1 s1.2 (PFrame.monthlyYoYT (monthlyYoYFrame aff))
  | Gran.annual =>
    let s1 := Heap.alloc h (PFrame.yearT (yearlyAvg aff))
    let h1 := Heap.store s1.1 s1.2 (PFrame.yearT (yearlyAvg aff))
    let h2 := Heap.store h1 s1.2
      (PFrame.yearYoYT ((yearlyAvg aff).zip (yearlyAvgYoY aff)))
    let s2 := Heap.alloc h2 (PFrame.yearT (yearlyTotal aff))
    let h3 := Heap.store s2.1 s2.2 (PFrame.yearT (yearlyTotal aff))
    let s3 := Heap.alloc h3 (PFrame.yearT (annualIndex aff))
    Heap.store s3.1 s3.2 (PFrame.yearT (annualIndex aff))

/-- The user-facing controls a run may depend on. -/
structure Opts where
  metric : Metric
  gran : Gran
  sel : String

/-- One full interaction: the routine the router chose, run over the heap
holding the loaded tables. -/
def runRoutineHeap (r : Routine) (o : Opts) (affRef foodRef : ℕ) (h : Heap) : Heap :=
  match r with
  | Routine.home => renderHomeHeap h
  | Routine.itemLevel => renderItemLevelHeap o.sel foodRef h
  | Routine.categoryLevel => renderCategoryHeap o.metric foodRef h
  | Routine.affordability => renderAffordabilityHeap o.gran affRef h

end FoodDash

namespace FoodDash

/-! ### Claim theorems: router -/

/-- C1. The `if/elif` view dispatch maps each of the four selector labels to
exactly its matching render routine, and any other value to no routine at
all — no fallback or default branch exists. -/
theorem dispatch_exact_match_no_fallback :
    dispatchView "Project Overview" = some Routine.home ∧
    dispatchView "Item-Level Analysis" = some Routine.itemLevel ∧
    dispatchView "Category-Level Analysis" = some Routine.categoryLevel ∧
    dispatchView "Affordability Overview" = some Routine.affordability ∧
    ∀ v : String, v ∉ viewLabels → dispatchView v = none := by
  refine ⟨rfl, rfl, rfl, rfl, ?_⟩
  intro v hv
  simp only [viewLabels, List.mem_cons, List.not_mem_nil, or_false] at hv
  push_neg at hv
  obtain ⟨h1, h2, h3, h4⟩ := hv
  simp [dispatchView, h1, h2, h3, h4]

/-- Witness for C1: the unrecognized label `"Settings"` runs no routine. -/
theorem dispatch_exact_match_no_fallback_witness :
    dispatchView "Settings" = none :=
  dispatch_exact_match_no_fallback.2.2.2.2 "Settings" (by decide)

/-! ### Claim theorems: item-level filter round trip -/

/-- Occurrence counting through the item filter, for any label. -/
lemma count_itemSeries (food : List FRow) (sel d : String) (p : ℚ) :
    (itemSeries food sel).count (d, p) =
      (food.filter (fun r => r.item = sel ∧ r.date = d ∧ r.price = p)).length := by
  induction food with
  | nil => rfl
  | cons r t ih =>
    simp only [itemSeries, itemData] at ih ⊢
    rw [List.filter_cons, List.filter_cons]
    by_cases hr : r.item = sel
    · by_cases hdp : r.date = d ∧ r.price = p
      · obtain ⟨h1, h2⟩ := hdp
        simp [hr, h1, h2, List.count_cons, ih]
      · have hne : ((d : String), p) ≠ (r.date, r.price) := fun h =>
          hdp ⟨(Prod.ext_iff.mp h).1.symm, (Prod.ext_iff.mp h).2.symm⟩
        have hno : ¬(r.item = sel ∧ r.date = d ∧ r.price = p) :=
          fun c => hdp ⟨c.2.1, c.2.2⟩
        simp [hr, hno, hne, hdp, List.count_cons, ih]
    · have hno : ¬(r.item = sel ∧ r.date = d ∧ r.price = p) := fun c => hr c.1
      simp [hr, hno, ih]

/-- C4. For an item label present in the food table, filtering to that item
and projecting `(Date, Price)` reproduces exactly the multiset of
`(Date, Price)` pairs of the source rows carrying that label: each pair
occurs in the derived series precisely as many times as rows with that
item, date and price occur in the table — nothing added, dropped or
altered. -/
theorem item_filter_round_trip (food : List FRow) (sel : String)
    (_hsel : sel ∈ food.map (fun r => r.item)) :
    ∀ (d : String) (p : ℚ),
      (itemSeries food sel).count (d, p) =
        (food.filter (fun r => r.item = sel ∧ r.date = d ∧ r.price = p)).length :=
  fun d p => count_itemSeries food sel d p

/-- A small concrete food table used by witnesses. -/
def foodSample : List FRow :=
  [⟨"Milk", "2014-01", 1, "Healthy"⟩,
   ⟨"Milk", "2014-02", 2, "Healthy"⟩,
   ⟨"Beef", "2014-01", 9, "Neutral"⟩]

/-- Witness for C4 at a concrete table, label, date and price. -/
theorem item_filter_round_trip_witness :
    (itemSeries foodSample "Milk").count ("2014-01", (1 : ℚ)) =
      (foodSample.filter
        (fun r => r.item = "Milk" ∧ r.date = "2014-01" ∧ r.price = 1)).length :=
  item_filter_round_trip foodSample "Milk" (by decide) "2014-01" 1

/-! ### Claim theorems: head(5) / tail(5) ranking extracts -/

/-- Sorting distinct keys keeps them distinct. -/
lemma sortedKeys_nodup [DecidableEq κ] (le : κ → κ → Bool) (l : List κ) :
    (sortedKeys le l).Nodup :=
  (List.perm_insertionSort _ _).symm.nodup (List.nodup_dedup l)

/-- The sorted ranking is a permutation of the keyed group list. -/
lemma sortRank_perm (l : List (String × Option ℚ)) : (sortRank l).Perm l :=
  List.perm_insertionSort rankRel l

/-- The item column of a grouped series is exactly the group keys. -/
lemma keyed_map_fst (food : List FRow) (f : String → Option ℚ) :
    (((itemKeys food).map (fun k => (k, f k))).map Prod.fst) = itemKeys food := by
  rw [List.map_map]
  simp [Function.comp_def]

/-- A ranking built from the per-item groups has distinct items and one
row per item. -/
lemma ranking_fst_nodup (food : List FRow) (f : String → Option ℚ) :
    ((sortRank ((itemKeys food).map (fun k => (k, f k)))).map Prod.fst).Nodup ∧
    (sortRank ((itemKeys food).map (fun k => (k, f k)))).length =
      (itemKeys food).length := by
  have hperm := (sortRank_perm ((itemKeys food).map (fun k => (k, f k)))).map Prod.fst
  constructor
  · refine hperm.symm.nodup ?_
    rw [keyed_map_fst]
    exact sortedKeys_nodup _ _
  · calc (sortRank ((itemKeys food).map (fun k => (k, f k)))).length
        = ((sortRank ((itemKeys food).map (fun k => (k, f k)))).map Prod.fst).length := by
          rw [List.length_map]
      _ = (((itemKeys food).map (fun k => (k, f k))).map Prod.fst).length := hperm.length_eq
      _ = (itemKeys food).length := by rw [keyed_map_fst]

/-- `head(5)` and `tail(5)` of a duplicate-free list of length at least 10
share no element. -/
lemma take5_tail5_disjoint (l : List α) (hnd : l.Nodup) (hlen : 10 ≤ l.length) :
    ∀ x ∈ take5 l, x ∉ tail5 l := by
  intro x hx hx'
  have hnd' : (l.take (l.length - 5) ++ l.drop (l.length - 5)).Nodup := by
    rw [List.take_append_drop]; exact hnd
  have hdisj := (List.nodup_append.mp hnd').2.2
  have hmin : (5 : ℕ) ⊓ (l.length - 5) = 5 := inf_eq_left.mpr (by omega)
  have h1 : l.take 5 = List.take 5 (l.take (l.length - 5)) := by
    rw [List.take_take, hmin]
  have hx5 : x ∈ l.take (l.length - 5) := by
    simp only [take5] at hx
    exact List.take_subset 5 _ (h1 ▸ hx)
  exact hdisj hx5 hx'

/-- On a list of at most five rows, `head(5)` and `tail(5)` are the whole
list. -/
lemma take5_tail5_of_short (l : List α) (h : l.length ≤ 5) :
    take5 l = l ∧ tail5 l = l := by
  refine ⟨List.take_of_length_le h, ?_⟩
  have h0 : l.length - 5 = 0 := by omega
  simp [tail5, h0]

/-- Head/tail extracts for one keyed ranking. -/
lemma ranking_extracts (food : List FRow) (f : String → Option ℚ) :
    (10 < (itemKeys food).length →
      ∀ x ∈ (take5 (sortRank ((itemKeys food).map (fun k => (k, f k))))).map Prod.fst,
        x ∉ (tail5 (sortRank ((itemKeys food).map (fun k => (k, f k))))).map Prod.fst) ∧
    ((itemKeys food).length = 1 →
      take5 (sortRank ((itemKeys food).map (fun k => (k, f k)))) =
        tail5 (sortRank ((itemKeys food).map (fun k => (k, f k))))) := by
  obtain ⟨hnd, hlen⟩ := ranking_fst_nodup food f
  have hlen' : ((sortRank ((itemKeys food).map (fun k => (k, f k)))).map Prod.fst).length =
      (itemKeys food).length := by
    rw [List.length_map]; exact hlen
  constructor
  · intro h10 x hx hx'
    have hd := take5_tail5_disjoint _ hnd (by omega)
    refine hd x ?_ ?_
    · simpa [take5, List.map_take] using hx
    · simpa [tail5, List.map_drop, List.length_map] using hx'
  · intro h1
    have hshort : (sortRank ((itemKeys food).map (fun k => (k, f k)))).length ≤ 5 := by
      omega
    obtain ⟨ht, hb⟩ := take5_tail5_of_short _ hshort
    rw [ht, hb]

/-- C5. For both the volatility ranking (per-item std dev, descending) and
the price ranking (per-item mean, descending): with more than 10 distinct
items the top-5 and bottom-5 extracts are disjoint sets of items, and with
exactly one item the two extracts coincide (the single item is both). -/
theorem rankings_head_tail_extracts (food : List FRow) :
    (10 < (itemKeys food).length →
      (∀ x ∈ (take5 (volatilityRanking food)).map Prod.fst,
          x ∉ (tail5 (volatilityRanking food)).map Prod.fst) ∧
      (∀ x ∈ (take5 (avgPriceRanking food)).map Prod.fst,
          x ∉ (tail5 (avgPriceRanking food)).map Prod.fst)) ∧
    ((itemKeys food).length = 1 →
      take5 (volatilityRanking food) = tail5 (volatilityRanking food) ∧
      take5 (avgPriceRanking food) = tail5 (avgPriceRanking food)) := by
  have hv := ranking_extracts food (fun k => sampleVar (pricesOf food k))
  have ha := ranking_extracts food (fun k => groupMean (pricesOf food k))
  exact ⟨fun h10 => ⟨hv.1 h10, ha.1 h10⟩, fun h1 => ⟨hv.2 h1, ha.2 h1⟩⟩

/-- Eleven distinct items, one observation each. -/
def foodElevenItems : List FRow :=
  [⟨"a", "2014-01", 1, "Healthy"⟩, ⟨"b", "2014-01", 2, "Healthy"⟩,
   ⟨"c", "2014-01", 3, "Healthy"⟩, ⟨"d", "2014-01", 4, "Healthy"⟩,
   ⟨"e", "2014-01", 5, "Healthy"⟩, ⟨"f", "2014-01", 6, "Neutral"⟩,
   ⟨"g", "2014-01", 7, "Neutral"⟩, ⟨"h", "2014-01", 8, "Neutral"⟩,
   ⟨"i", "2014-01", 9, "Unhealthy"⟩, ⟨"j", "2014-01", 10, "Unhealthy"⟩,
   ⟨"k", "2014-01", 11, "Unhealthy"⟩]

/-- A single-item table. -/
def foodOneItem : List FRow := [⟨"Milk", "2014-01", 1, "Healthy"⟩]

/-- Witness for C5: disjointness at an 11-item table and coincidence at a
1-item table. -/
theorem rankings_head_tail_extracts_witness :
    ("a" ∉ (tail5 (volatilityRanking foodElevenItems)).map Prod.fst) ∧
    take5 (volatilityRanking foodOneItem) = tail5 (volatilityRanking foodOneItem) :=
  ⟨((rankings_head_tail_extracts foodElevenItems).1 (by decide)).1 "a" (by decide),
   ((rankings_head_tail_extracts foodOneItem).2 (by decide)).1⟩

/-! ### Claim theorems: single-observation item in the volatility ranking -/

/-- The std dev key is NaN exactly on groups with fewer than two rows. -/
lemma sampleVar_eq_none_iff (l : List ℚ) : sampleVar l = none ↔ l.length < 2 := by
  unfold sampleVar
  split
  · simp_all
  · simp_all

/-- The last element of a list is always inside its `tail(5)`. -/
lemma getLast?_mem_tail5 (l : List α) (a : α) (h : l.getLast? = some a) :
    a ∈ tail5 l := by
  have hne : l ≠ [] := by
    intro e
    rw [e] at h
    exact Option.noConfusion h
  have hlen : 0 < l.length := List.length_pos.mpr hne
  have hlast : l.getLast hne = a := by
    rw [List.getLast?_eq_getLast l hne] at h
    exact Option.some.inj h
  have hj : (l.length - 1) - (l.length - 5) < (l.drop (l.length - 5)).length := by
    rw [List.length_drop]
    omega
  have hidx : (l.length - 5) + ((l.length - 1) - (l.length - 5)) = l.length - 1 := by
    omega
  have hget : (l.drop (l.length - 5)).get ⟨(l.length - 1) - (l.length - 5), hj⟩ = a := by
    rw [List.get_eq_getElem, List.getElem_drop]
    simp only [hidx]
    rw [← List.getLast_eq_getElem l hne]
    exact hlast
  have := List.get_mem (l.drop (l.length - 5)) _ hj
  rw [hget] at this
  exact this

/-- Counterexample for C9 as stated: in a table where every one of eleven
items has a single observation, item `"a"` has exactly one price
observation yet does not appear in the bottom-5 table (`tail(5)` keeps
only the last five of the eleven all-NaN rows). -/
theorem single_obs_bottom5_counterexample :
    ((foodElevenItems.filter (fun r => r.item = "a")).length = 1) ∧
    "a" ∉ (tail5 (volatilityRanking foodElevenItems)).map Prod.fst := by
  decide

/-- C9 (amended). An item with exactly one price observation gets an
undefined (NaN) sample standard deviation; the descending sort places
undefined values last, so the item is not excluded: when every other item
has at least two observations, the item is the last row of the ranking and
therefore appears in the bottom-5 table, with an undefined value. -/
theorem single_obs_item_ranked_last (food : List FRow) (x : String)
    (h1 : (pricesOf food x).length = 1)
    (h2 : ∀ k ∈ itemKeys food, k ≠ x → 2 ≤ (pricesOf food k).length) :
    (volatilityRanking food).getLast? = some (x, none) ∧
    x ∈ (tail5 (volatilityRanking food)).map Prod.fst := by
  have hx : x ∈ itemKeys food := by
    have hne : (food.filter (fun r => r.item = x)) ≠ [] := by
      intro e
      simp [pricesOf, e] at h1
    obtain ⟨r, hr⟩ := List.exists_mem_of_ne_nil _ hne
    have hrf := List.mem_filter.mp hr
    have hrx : r.item = x := by simpa using hrf.2
    have : x ∈ food.map (fun s => s.item) :=
      List.mem_map.mpr ⟨r, hrf.1, hrx⟩
    unfold itemKeys sortedKeys
    rw [(List.perm_insertionSort _ _).mem_iff]
    exact List.mem_dedup.mpr this
  have hvx : sampleVar (pricesOf food x) = none :=
    (sampleVar_eq_none_iff _).mpr (by omega)
  have hmemk : (x, (none : Option ℚ)) ∈
      (itemKeys food).map (fun k => (k, sampleVar (pricesOf food k))) := by
    refine List.mem_map.mpr ⟨x, hx, ?_⟩
    rw [hvx]
  have hmem : (x, (none : Option ℚ)) ∈ volatilityRanking food := by
    unfold volatilityRanking
    rw [(sortRank_perm _).mem_iff]
    exact hmemk
  have hall : ∀ p ∈ volatilityRanking food, p.2 = none → p.1 = x := by
    intro p hp hpn
    have hpk : p ∈ (itemKeys food).map (fun k => (k, sampleVar (pricesOf food k))) := by
      rw [← (sortRank_perm _).mem_iff]
      exact hp
    obtain ⟨k, hk, hpe⟩ := List.mem_map.mp hpk
    by_contra hne
    have hfst : p.1 = k := by rw [← hpe]
    have hsnd : p.2 = sampleVar (pricesOf food k) := by rw [← hpe]
    have hk2 := h2 k hk (by rw [← hfst]; exact fun e => hne e)
    have : (pricesOf food k).length < 2 := by
      rw [hsnd] at hpn
      exact (sampleVar_eq_none_iff _).mp hpn
    omega
  have hsorted : List.Pairwise rankRel (volatilityRanking food) :=
    List.sorted_insertionSort rankRel _
  obtain ⟨s, t, hst⟩ := List.append_of_mem hmem
  have htn : ∀ b ∈ t, b.2 = (none : Option ℚ) := by
    intro b hb
    rw [hst] at hsorted
    have h3 := (List.pairwise_append.mp hsorted).2.1
    have h4 := (List.pairwise_cons.mp h3).1 b hb
    unfold rankRel rankGe at h4
    revert h4
    cases b.2 <;> simp
  have hnd : ((volatilityRanking food).map Prod.fst).Nodup :=
    (ranking_fst_nodup food (fun k => sampleVar (pricesOf food k))).1
  have ht : t = [] := by
    rw [List.eq_nil_iff_forall_not_mem]
    intro b hb
    have hbx : b.1 = x := by
      refine hall b ?_ (htn b hb)
      rw [hst]
      exact List.mem_append.mpr (Or.inr (List.mem_cons.mpr (Or.inr hb)))
    rw [hst] at hnd
    simp only [List.map_append, List.map_cons] at hnd
    have := (List.nodup_append.mp hnd).2.1
    have hxnot := (List.nodup_cons.mp this).1
    exact hxnot (hbx ▸ List.mem_map_of_mem Prod.fst hb)
  have hlast : (volatilityRanking food).getLast? = some (x, none) := by
    rw [hst, ht]
    exact List.getLast?_concat s
  refine ⟨hlast, ?_⟩
  exact List.mem_map_of_mem Prod.fst (getLast?_mem_tail5 _ _ hlast)

/-- Two items: `"Beef"` with two observations, `"Milk"` with one. -/
def foodOneSingle : List FRow :=
  [⟨"Beef", "2014-01", 8, "Neutral"⟩,
   ⟨"Beef", "2014-02", 9, "Neutral"⟩,
   ⟨"Milk", "2014-01", 1, "Healthy"⟩]

/-- Witness for amended C9: the single-observation item `"Milk"` is the
last, NaN-valued, row of the ranking and sits in the bottom-5 table. -/
theorem single_obs_item_ranked_last_witness :
    (volatilityRanking foodOneSingle).getLast? = some ("Milk", none) ∧
    "Milk" ∈ (tail5 (volatilityRanking foodOneSingle)).map Prod.fst :=
  single_obs_item_ranked_last foodOneSingle "Milk" (by decide) (by decide)

/-! ### Claim theorems: Category-Level YoY edges -/

/-- `pct_change` preserves the column length. -/
lemma pctChange_length (k : ℕ) (l : List (Option ℚ)) :
    (pctChange k l).length = l.length := by
  simp [pctChange]

/-- `* 100` preserves the column length. -/
lemma times100_length (l : List (Option ℚ)) : (times100 l).length = l.length := by
  simp [times100]

/-- Before the lag horizon, `pct_change` is NaN. -/
lemma pctChange_getElem_lt (k : ℕ) (l : List (Option ℚ)) (i : ℕ)
    (hi : i < l.length) (hk : i < k) : (pctChange k l)[i]? = some none := by
  unfold pctChange
  rw [List.getElem?_map, List.getElem?_range hi]
  have : ¬ k ≤ i := by omega
  simp [this]

/-- From the lag horizon on, `pct_change` is the relative change of the
two cells (NaN if either is missing or the base is zero). -/
lemma pctChange_getElem_ge (k : ℕ) (l : List (Option ℚ)) (i : ℕ)
    (hi : i < l.length) (hk : k ≤ i) :
    (pctChange k l)[i]? = some (match l.getD (i - k) none, l.getD i none with
      | some p, some c => if p = 0 then none else some ((c - p) / p)
      | _, _ => none) := by
  unfold pctChange
  rw [List.getElem?_map, List.getElem?_range hi]
  simp [hk]

/-- `* 100` acts cellwise. -/
lemma times100_getElem (l : List (Option ℚ)) (i : ℕ) :
    (times100 l)[i]? = (l[i]?).map (Option.map (· * 100)) := by
  simp [times100, List.getElem?_map]

/-- In-range `getD` reads an element of the list. -/
lemma getD_mem_of_lt (l : List (Option ℚ)) (j : ℕ) (hj : j < l.length) :
    l.getD j none ∈ l := by
  rw [List.getD_eq_getElem l none hj]
  exact List.getElem_mem hj

/-- The Category YoY column spans the full date index. -/
lemma categoryYoY_length (m : Metric) (food : List FRow) (t : String) :
    (categoryYoY m food t).length = (dateIndex food).length := by
  unfold categoryYoY
  rw [times100_length, pctChange_length]
  simp [pivotColumn]

/-- The Category YoY column is NaN at each of the first 12 positions. -/
lemma categoryYoY_first12 (m : Metric) (food : List FRow) (t : String) (i : ℕ)
    (h12 : i < 12) (hlen : i < (dateIndex food).length) :
    (categoryYoY m food t)[i]? = some none := by
  have hcol : (pivotColumn m food t).length = (dateIndex food).length := by
    simp [pivotColumn]
  unfold categoryYoY
  rw [times100_getElem, pctChange_getElem_lt 12 _ i (by omega) h12]
  rfl

/-- C2. In the Category-Level routine, the YoY column of every Tag is NaN
at each of the first 12 index positions, and on a perfectly flat pivoted
series of constant value `c` every later position is `0` (as a percentage)
 — except that a flat zero series divides zero by zero and stays NaN, so
every defined point is `0` in all cases. -/
theorem category_yoy_first12_nan_flat_zero :
    (∀ (m : Metric) (food : List FRow) (t : String) (i : ℕ),
        i < 12 → i < (dateIndex food).length →
        (categoryYoY m food t)[i]? = some none) ∧
    (∀ (m : Metric) (food : List FRow) (t : String) (c : ℚ),
        (∀ v ∈ pivotColumn m food t, v = some c) →
        ∀ i, 12 ≤ i → i < (dateIndex food).length →
        (categoryYoY m food t)[i]? = some (if c = 0 then none else some 0)) := by
  constructor
  · exact fun m food t i h12 hlen => categoryYoY_first12 m food t i h12 hlen
  · intro m food t c hflat i h12 hlen
    have hcol : (pivotColumn m food t).length = (dateIndex food).length := by
      simp [pivotColumn]
    have hprev : (pivotColumn m food t).getD (i - 12) none = some c :=
      hflat _ (getD_mem_of_lt _ _ (by omega))
    have hcur : (pivotColumn m food t).getD i none = some c :=
      hflat _ (getD_mem_of_lt _ _ (by omega))
    unfold categoryYoY
    rw [times100_getElem, pctChange_getElem_ge 12 _ i (by omega) h12]
    rw [hprev, hcur]
    by_cases hc : c = 0
    · simp [hc]
    · simp [hc]

/-- Thirteen months of one item at the constant price 2. -/
def foodFlat : List FRow :=
  [⟨"Apple", "m01", 2, "Healthy"⟩, ⟨"Apple", "m02", 2, "Healthy"⟩,
   ⟨"Apple", "m03", 2, "Healthy"⟩, ⟨"Apple", "m04", 2, "Healthy"⟩,
   ⟨"Apple", "m05", 2, "Healthy"⟩, ⟨"Apple", "m06", 2, "Healthy"⟩,
   ⟨"Apple", "m07", 2, "Healthy"⟩, ⟨"Apple", "m08", 2, "Healthy"⟩,
   ⟨"Apple", "m09", 2, "Healthy"⟩, ⟨"Apple", "m10", 2, "Healthy"⟩,
   ⟨"Apple", "m11", 2, "Healthy"⟩, ⟨"Apple", "m12", 2, "Healthy"⟩,
   ⟨"Apple", "m13", 2, "Healthy"⟩]

/-- The 13-month table is perfectly flat at 2 in its pivoted column. -/
lemma foodFlat_column_flat :
    ∀ v ∈ pivotColumn Metric.mean foodFlat "Healthy", v = some 2 := by
  have hmean : listMean [(2 : ℚ)] = 2 := by norm_num [listMean]
  intro v hv
  unfold pivotColumn at hv
  have hdi : dateIndex foodFlat =
      ["m01", "m02", "m03", "m04", "m05", "m06", "m07",
       "m08", "m09", "m10", "m11", "m12", "m13"] := rfl
  rw [hdi] at hv
  simp only [List.mem_map, List.mem_cons, List.not_mem_nil, or_false] at hv
  obtain ⟨d, hd, hveq⟩ := hv
  subst hveq
  rcases hd with h | h | h | h | h | h | h | h | h | h | h | h | h <;> subst h <;>
    exact congrArg some hmean

/-- Witness for C2: on the flat 13-month table, position 0 of the YoY
column is NaN and position 12 is a defined 0%. -/
theorem category_yoy_first12_nan_flat_zero_witness :
    (categoryYoY Metric.mean foodFlat "Healthy")[0]? = some none ∧
    (categoryYoY Metric.mean foodFlat "Healthy")[12]? =
      some (if (2 : ℚ) = 0 then none else some 0) :=
  ⟨category_yoy_first12_nan_flat_zero.1 Metric.mean foodFlat "Healthy" 0
      (by decide) (by decide),
   category_yoy_first12_nan_flat_zero.2 Metric.mean foodFlat "Healthy" 2
      foodFlat_column_flat 12 (by decide) (by decide)⟩

/-! ### Claim theorems: pivot uniqueness precondition -/

/-- C10. The pivot input derived from `monthly_stats` always has distinct
`(Date, Tag)` keys — they are the groupby keys — so `pivot` never reaches
its duplicate-entries error branch, for any food table and either metric. -/
theorem monthly_stats_pivot_never_raises (m : Metric) (food : List FRow) :
    pivotOrRaise (monthlyFiltered m food) =
      some (pivotTable (monthlyFiltered m food)) := by
  unfold pivotOrRaise
  rw [if_pos]
  have hkeys : (monthlyFiltered m food).map Prod.fst = pairKeys food := by
    unfold monthlyFiltered monthlyStats
    rw [List.map_map, List.map_map]
    simp [Function.comp_def]
  rw [hkeys]
  exact sortedKeys_nodup _ _

/-! ### Claim theorems: static nutrition summary table -/

/-- C8. The nutrition summary table of the Category-Level routine does not
depend on the loaded data: any two food tables produce the identical
summary, which is the fixed table of literal strings from the source. -/
theorem category_summary_static :
    (∀ (m : Metric) (f1 f2 : List FRow),
        (renderCategoryOutput m f1).summary = (renderCategoryOutput m f2).summary) ∧
    (∀ (m : Metric) (food : List FRow),
        (renderCategoryOutput m food).summary =
          [("Category", ["Healthy", "Neutral", "Unhealthy"]),
           ("Mean Price", ["€7.52", "€6.53", "€6.45"]),
           ("Median Price (50%)", ["€3.65", "€2.20", "€5.27"]),
           ("Skew (Mean > Median?)", ["High", "Very High", "Low"]),
           ("Price Stability (std)", ["Medium (7.01)", "High (9.64)", "Stable (5.40)"])]) :=
  ⟨fun _ _ _ => rfl, fun _ _ => rfl⟩

/-! ### Claim theorems: Affordability Monthly YoY dropna -/

/-- Rows surviving the NaN filter are counted by definedness of the cell. -/
lemma length_filterMap_snd (l : List (ARow × Option ℚ)) :
    (l.filterMap (fun p => p.2.map (fun y => (p.1, y)))).length =
      l.countP (fun p => p.2.isSome) := by
  induction l with
  | nil => rfl
  | cons a t ih =>
    cases h : a.2 <;> simp [List.filterMap_cons, h, List.countP_cons, ih]

/-- Counting by the second component through a same-length zip. -/
lemma countP_snd_zip (l : List ARow) (c : List (Option ℚ))
    (h : c.length = l.length) :
    (l.zip c).countP (fun q => q.2.isSome) = c.countP (fun v => v.isSome) := by
  induction l generalizing c with
  | nil =>
    cases c with
    | nil => rfl
    | cons b u => simp at h
  | cons a t ih =>
    cases c with
    | nil => simp at h
    | cons b u =>
      simp only [List.zip_cons_cons, List.countP_cons]
      rw [ih u (by simpa using h)]

/-- `* 100` keeps cells defined or missing as they were. -/
lemma countP_isSome_times100 (l : List (Option ℚ)) :
    (times100 l).countP (fun v => v.isSome) = l.countP (fun v => v.isSome) := by
  induction l with
  | nil => rfl
  | cons a t ih => cases a <;> simp [times100, List.countP_cons, ih] <;>
      simpa [times100] using ih

/-- A column defined exactly from position `k` on has `length - k`
defined cells. -/
lemma countP_isSome_of_char (L : List (Option ℚ)) :
    ∀ (k : ℕ),
      (∀ (i : ℕ) (hi : i < L.length), (L.get ⟨i, hi⟩).isSome = decide (k ≤ i)) →
      L.countP (fun v => v.isSome) = L.length - k := by
  induction L with
  | nil =>
    intro k _
    simp
  | cons a t ih =>
    intro k hchar
    have ha := hchar 0 (by simp)
    cases k with
    | zero =>
      have htail : ∀ (i : ℕ) (hi : i < t.length), (t.get ⟨i, hi⟩).isSome = decide (0 ≤ i) := by
        intro i hi
        have h5 := hchar (i + 1) (by simpa using Nat.succ_lt_succ hi)
        simp only [List.get_eq_getElem, List.getElem_cons_succ] at h5
        rw [List.get_eq_getElem, h5]
        simp
      have hc := ih 0 htail
      have ha' : a.isSome = true := by simpa using ha
      simp [List.countP_cons, ha', hc]
    | succ k =>
      have htail : ∀ (i : ℕ) (hi : i < t.length), (t.get ⟨i, hi⟩).isSome = decide (k ≤ i) := by
        intro i hi
        have h5 := hchar (i + 1) (by simpa using Nat.succ_lt_succ hi)
        simp only [List.get_eq_getElem, List.getElem_cons_succ] at h5
        rw [List.get_eq_getElem, h5]
        simp [Nat.succ_le_succ_iff]
      have hc := ih k htail
      have ha' : a.isSome = false := by simpa using ha
      simp only [List.countP_cons, ha', hc, Bool.false_eq_true, if_false,
        List.length_cons]
      omega

/-- Reading the fully-present basket column. -/
lemma basketCol_getD (aff : List ARow) (j : ℕ) (hj : j < aff.length) :
    (aff.map (fun r => some r.basket)).getD j none =
      some ((aff.get ⟨j, hj⟩).basket) := by
  rw [List.getD_eq_getElem _ none (by simpa using hj)]
  simp

/-- On a nowhere-zero basket column, the YoY cell at position `i` is
defined exactly from the lag horizon on. -/
lemma monthlyYoY_isSome_iff (aff : List ARow)
    (h : ∀ r ∈ aff, r.basket ≠ 0) (i : ℕ) (hi : i < aff.length) :
    (((pctChange 12 (aff.map (fun r => some r.basket))).getD i none).isSome) =
      decide (12 ≤ i) := by
  have hlen : (aff.map (fun r => some r.basket)).length = aff.length := by simp
  have hp : (pctChange 12 (aff.map (fun r => some r.basket))).length = aff.length := by
    rw [pctChange_length, hlen]
  by_cases h12 : 12 ≤ i
  · rw [List.getD_eq_getElem _ none (by omega)]
    have hq := pctChange_getElem_ge 12 (aff.map (fun r => some r.basket)) i
      (by omega) h12
    rw [List.getElem?_eq_getElem (by omega)] at hq
    have hq' := Option.some.inj hq
    rw [hq', basketCol_getD aff (i - 12) (by omega), basketCol_getD aff i (by omega)]
    have hne : (aff.get ⟨i - 12, by omega⟩).basket ≠ 0 :=
      h _ (List.get_mem aff (i - 12) (by omega))
    rw [List.get_eq_getElem] at hne
    simp [hne, h12]
  · rw [List.getD_eq_getElem _ none (by omega)]
    have hq := pctChange_getElem_lt 12 (aff.map (fun r => some r.basket)) i
      (by omega) (by omega)
    rw [List.getElem?_eq_getElem (by omega)] at hq
    rw [Option.some.inj hq]
    simp [h12]

/-- C3. In the Affordability Monthly branch the YoY series is charted
through `dropna()`: when no basket cost is zero, exactly the first 12 rows
are removed from the charted series (its length is the table's length
minus 12 and every charted row comes from index 12 on) — unlike the
Category-Level routine, whose YoY column keeps all index positions and
carries NaN in the first 12. -/
theorem afford_monthly_yoy_drops_first12 (aff : List ARow)
    (h : ∀ r ∈ aff, r.basket ≠ 0) :
    (monthlyYoYCharted aff).length = aff.length - 12 ∧
    (∀ p ∈ monthlyYoYCharted aff, p.1 ∈ aff.drop 12) ∧
    (∀ (m : Metric) (food : List FRow) (t : String),
        (categoryYoY m food t).length = (dateIndex food).length ∧
        ∀ i, i < 12 → i < (dateIndex food).length →
          (categoryYoY m food t)[i]? = some none) := by
  have hcollen : (monthlyYoYCol aff).length = aff.length := by
    unfold monthlyYoYCol
    rw [times100_length, pctChange_length]
    simp
  have hplen : (pctChange 12 (aff.map (fun r => some r.basket))).length = aff.length := by
    rw [pctChange_length]
    simp
  have hchar : ∀ (i : ℕ) (hi : i < (monthlyYoYCol aff).length),
      ((monthlyYoYCol aff).get ⟨i, hi⟩).isSome = decide (12 ≤ i) := by
    intro i hi
    have hi' : i < aff.length := by rwa [hcollen] at hi
    have h1 := times100_getElem (pctChange 12 (aff.map (fun r => some r.basket))) i
    have hlt1 : i < (times100 (pctChange 12 (aff.map (fun r => some r.basket)))).length := by
      rw [times100_length]
      omega
    have hlt2 : i < (pctChange 12 (aff.map (fun r => some r.basket))).length := by
      omega
    rw [List.getElem?_eq_getElem hlt1, List.getElem?_eq_getElem hlt2] at h1
    simp only [Option.map_some'] at h1
    have h3 := monthlyYoY_isSome_iff aff h i hi'
    rw [List.getD_eq_getElem _ none (by omega)] at h3
    rw [List.get_eq_getElem]
    have hsame : (monthlyYoYCol aff).get ⟨i, hi⟩ =
        (times100 (pctChange 12 (aff.map (fun r => some r.basket)))).get ⟨i, by
          rw [times100_length]; omega⟩ := rfl
    rw [List.get_eq_getElem] at hsame
    rw [List.get_eq_getElem] at hsame
    rw [hsame, Option.some.inj h1]
    cases hv : (pctChange 12 (aff.map (fun r => some r.basket)))[i] with
    | none =>
      rw [hv] at h3
      simpa using h3.symm
    | some v =>
      rw [hv] at h3
      simpa using h3.symm
  refine ⟨?_, ?_, ?_⟩
  · unfold monthlyYoYCharted monthlyYoYFrame
    rw [length_filterMap_snd, countP_snd_zip aff _ hcollen]
    rw [countP_isSome_of_char _ 12 hchar, hcollen]
  · intro p hp
    obtain ⟨q, hq, hfq⟩ := List.mem_filterMap.mp hp
    cases hq2 : q.2 with
    | none =>
      rw [hq2] at hfq
      exact absurd hfq (by simp)
    | some y =>
      rw [hq2] at hfq
      have hq1 : q.1 = p.1 := by
        have : (q.1, y) = p := by simpa using hfq
        rw [← this]
      unfold monthlyYoYFrame at hq
      obtain ⟨⟨i, hilt⟩, hget⟩ := List.get_of_mem hq
      have hzl : (aff.zip (monthlyYoYCol aff)).length = aff.length := by
        rw [List.length_zip, hcollen, min_self]
      have hi' : i < aff.length := by omega
      have hgz : (aff.zip (monthlyYoYCol aff)).get ⟨i, hilt⟩ =
          (aff.get ⟨i, by omega⟩, (monthlyYoYCol aff).get ⟨i, by omega⟩) := by
        rw [List.get_eq_getElem, List.get_eq_getElem, List.get_eq_getElem]
        exact List.getElem_zip
      have hcolisome : q.2 = (monthlyYoYCol aff).get ⟨i, by omega⟩ := by
        rw [← hget, hgz]
      have h12 : 12 ≤ i := by
        by_contra hlt12
        have hnan : (monthlyYoYCol aff)[i]? = some none := by
          unfold monthlyYoYCol
          rw [times100_getElem, pctChange_getElem_lt 12 _ i
            (by rw [List.length_map]; omega) (by omega)]
          rfl
        rw [List.getElem?_eq_getElem (by omega)] at hnan
        have : (monthlyYoYCol aff).get ⟨i, by omega⟩ = none := by
          rw [List.get_eq_getElem]
          exact Option.some.inj hnan
        rw [← hcolisome, hq2] at this
        exact Option.noConfusion this
      have hmem : aff.get ⟨i, by omega⟩ ∈ aff.drop 12 := by
        have hjd : i - 12 < (aff.drop 12).length := by
          rw [List.length_drop]
          omega
        have : (aff.drop 12).get ⟨i - 12, hjd⟩ = aff.get ⟨i, by omega⟩ := by
          rw [List.get_eq_getElem, List.get_eq_getElem, List.getElem_drop]
          simp only [show 12 + (i - 12) = i from by omega]
        rw [← this]
        exact List.get_mem _ _ _
      have hq1aff : q.1 = aff.get ⟨i, by omega⟩ := by
        rw [← hget, hgz]
      rw [← hq1, hq1aff]
      exact hmem
  · intro m food t
    exact ⟨categoryYoY_length m food t, fun i h12 hlen =>
      categoryYoY_first12 m food t i h12 hlen⟩

/-- Thirteen months of nonzero basket costs. -/
def affordSample : List ARow :=
  [⟨2014, 1, 100, 9, 100⟩, ⟨2014, 2, 101, 9, 100⟩, ⟨2014, 3, 102, 9, 100⟩,
   ⟨2014, 4, 103, 9, 100⟩, ⟨2014, 5, 104, 9, 100⟩, ⟨2014, 6, 105, 9, 100⟩,
   ⟨2014, 7, 106, 9, 100⟩, ⟨2014, 8, 107, 9, 100⟩, ⟨2014, 9, 108, 9, 100⟩,
   ⟨2014, 10, 109, 9, 100⟩, ⟨2014, 11, 110, 9, 100⟩, ⟨2014, 12, 111, 9, 100⟩,
   ⟨2015, 1, 112, 9, 100⟩]

/-- Witness for C3 at a concrete 13-month affordability table. -/
theorem afford_monthly_yoy_drops_first12_witness :
    (monthlyYoYCharted affordSample).length = affordSample.length - 12 ∧
    (∀ p ∈ monthlyYoYCharted affordSample, p.1 ∈ affordSample.drop 12) ∧
    (∀ (m : Metric) (food : List FRow) (t : String),
        (categoryYoY m food t).length = (dateIndex food).length ∧
        ∀ i, i < 12 → i < (dateIndex food).length →
          (categoryYoY m food t)[i]? = some none) :=
  afford_monthly_yoy_drops_first12 affordSample (by decide)

/-! ### Claim theorems: Affordability Annual aggregation -/

/-- The mean of a constant column is the constant. -/
lemma listMean_replicate (n : ℕ) (hn : n ≠ 0) (x : ℚ) :
    listMean (List.replicate n x) = x := by
  unfold listMean
  rw [List.sum_replicate, List.length_replicate, nsmul_eq_mul]
  exact mul_div_cancel_left₀ x (Nat.cast_ne_zero.mpr hn)

/-- C6. In the Affordability Annual branch, grouping by calendar year
yields the mean basket cost per year, its 1-period-lag percentage change,
and the summed basket cost per year; on a 24-month input of value `a`
through 2014 and `b` through 2015 the yearly sums are exactly `12 * a` and
`12 * b`, the yearly means are `a` and `b`, and the annual YoY column is
`[NaN, (b - a) / a * 100]`. -/
theorem annual_group_aggregation (a b : ℚ) (ha : a ≠ 0) :
    yearlyTotal (twoYearMonthly a b) = [(2014, 12 * a), (2015, 12 * b)] ∧
    yearlyAvg (twoYearMonthly a b) = [(2014, a), (2015, b)] ∧
    yearlyAvgYoY (twoYearMonthly a b) = [none, some ((b - a) / a * 100)] := by
  have hyears : (twoYearMonthly a b).map (fun r => r.year) =
      List.replicate 12 2014 ++ List.replicate 12 2015 := by
    unfold twoYearMonthly
    rw [List.map_append, List.map_map, List.map_map]
    rw [show ((fun r : ARow => r.year) ∘ fun i : ℕ => (⟨2014, i + 1, a, 0, 0⟩ : ARow)) =
        fun _ : ℕ => 2014 from rfl]
    rw [show ((fun r : ARow => r.year) ∘ fun i : ℕ => (⟨2015, i + 1, b, 0, 0⟩ : ARow)) =
        fun _ : ℕ => 2015 from rfl]
    rw [List.map_const', List.map_const', List.length_range]
  have hkeys : yearKeys (twoYearMonthly a b) = [2014, 2015] := by
    unfold yearKeys sortedKeys
    rw [hyears]
    rfl
  have hfilter14 : (twoYearMonthly a b).filter (fun r => r.year = 2014) =
      (List.range 12).map (fun i => (⟨2014, i + 1, a, 0, 0⟩ : ARow)) := by
    unfold twoYearMonthly
    rw [List.filter_append]
    rw [List.filter_map, List.filter_map]
    rw [show ((fun r : ARow => decide (r.year = 2014)) ∘
        fun i : ℕ => (⟨2014, i + 1, a, 0, 0⟩ : ARow)) = fun _ : ℕ => true from rfl]
    rw [show ((fun r : ARow => decide (r.year = 2014)) ∘
        fun i : ℕ => (⟨2015, i + 1, b, 0, 0⟩ : ARow)) = fun _ : ℕ => false from rfl]
    simp
  have hfilter15 : (twoYearMonthly a b).filter (fun r => r.year = 2015) =
      (List.range 12).map (fun i => (⟨2015, i + 1, b, 0, 0⟩ : ARow)) := by
    unfold twoYearMonthly
    rw [List.filter_append]
    rw [List.filter_map, List.filter_map]
    rw [show ((fun r : ARow => decide (r.year = 2015)) ∘
        fun i : ℕ => (⟨2014, i + 1, a, 0, 0⟩ : ARow)) = fun _ : ℕ => false from rfl]
    rw [show ((fun r : ARow => decide (r.year = 2015)) ∘
        fun i : ℕ => (⟨2015, i + 1, b, 0, 0⟩ : ARow)) = fun _ : ℕ => true from rfl]
    simp
  have h14 : basketsInYear (twoYearMonthly a b) 2014 = List.replicate 12 a := by
    unfold basketsInYear
    rw [hfilter14, List.map_map]
    rw [show ((fun r : ARow => r.basket) ∘ fun i : ℕ => (⟨2014, i + 1, a, 0, 0⟩ : ARow)) =
        fun _ : ℕ => a from rfl]
    rw [List.map_const', List.length_range]
  have h15 : basketsInYear (twoYearMonthly a b) 2015 = List.replicate 12 b := by
    unfold basketsInYear
    rw [hfilter15, List.map_map]
    rw [show ((fun r : ARow => r.basket) ∘ fun i : ℕ => (⟨2015, i + 1, b, 0, 0⟩ : ARow)) =
        fun _ : ℕ => b from rfl]
    rw [List.map_const', List.length_range]
  have havg : yearlyAvg (twoYearMonthly a b) = [(2014, a), (2015, b)] := by
    unfold yearlyAvg
    rw [hkeys]
    simp only [List.map_cons, List.map_nil]
    rw [h14, h15, listMean_replicate 12 (by norm_num) a,
      listMean_replicate 12 (by norm_num) b]
  refine ⟨?_, havg, ?_⟩
  · unfold yearlyTotal
    rw [hkeys]
    simp only [List.map_cons, List.map_nil]
    rw [h14, h15, List.sum_replicate, List.sum_replicate]
    norm_num [nsmul_eq_mul]
  · unfold yearlyAvgYoY
    rw [havg]
    show times100 (pctChange 1 [some a, some b]) = [none, some ((b - a) / a * 100)]
    unfold pctChange times100
    have hr : List.range ([some a, some b] : List (Option ℚ)).length = [0, 1] := rfl
    rw [hr]
    simp only [List.map_cons, List.map_nil]
    norm_num [List.getD_cons_zero, List.getD_cons_succ]
    exact ha

/-- Witness for C6 at the concrete costs 100 and 110. -/
theorem annual_group_aggregation_witness :
    yearlyTotal (twoYearMonthly 100 110) = [(2014, 12 * 100), (2015, 12 * 110)] ∧
    yearlyAvg (twoYearMonthly 100 110) = [(2014, 100), (2015, 110)] ∧
    yearlyAvgYoY (twoYearMonthly 100 110) =
      [none, some ((110 - 100) / 100 * 100)] :=
  annual_group_aggregation 100 110 (by norm_num)

/-! ### Claim theorems: rendering never mutates the loaded tables -/

/-- Reads below the old heap end see through any suffix of fresh frames. -/
lemma read_append (h : Heap) (l : List PFrame) (i : ℕ) (hi : i < h.length) :
    Heap.read (h ++ l) i = Heap.read h i := by
  unfold Heap.read
  exact List.getElem?_append_left hi

/-- A store at the first position of the suffix stays inside the suffix. -/
lemma set_len_append (h : Heap) (f g : PFrame) (l : List PFrame) :
    (h ++ f :: l).set h.length g = h ++ g :: l := by
  induction h with
  | nil => rfl
  | cons a t ih =>
    show a :: (t ++ f :: l).set t.length g = a :: (t ++ g :: l)
    rw [ih]

/-- The Monthly affordability branch only appends: the copy, then the YoY
column written through the copy's reference. -/
lemma renderAffordabilityHeap_monthly_eq (affRef : ℕ) (h : Heap) :
    renderAffordabilityHeap Gran.monthly affRef h =
      h ++ [PFrame.monthlyYoYT (monthlyYoYFrame (affordRowsAt h affRef))] := by
  unfold renderAffordabilityHeap
  simp only [Heap.alloc, Heap.store]
  exact set_len_append h _ _ []

/-- The Annual affordability branch only appends: the three groupby
results, each written through its own fresh reference. -/
lemma renderAffordabilityHeap_annual_eq (affRef : ℕ) (h : Heap) :
    renderAffordabilityHeap Gran.annual affRef h =
      h ++ [PFrame.yearYoYT ((yearlyAvg (affordRowsAt h affRef)).zip
              (yearlyAvgYoY (affordRowsAt h affRef))),
            PFrame.yearT (yearlyTotal (affordRowsAt h affRef)),
            PFrame.yearT (annualIndex (affordRowsAt h affRef))] := by
  unfold renderAffordabilityHeap
  simp only [Heap.alloc, Heap.store]
  generalize affordRowsAt h affRef = aff
  rw [set_len_append h _ _ []]
  rw [set_len_append h _ _ []]
  rw [set_len_append
    (h ++ [PFrame.yearYoYT ((yearlyAvg aff).zip (yearlyAvgYoY aff))]) _ _ []]
  rw [set_len_append
    ((h ++ [PFrame.yearYoYT ((yearlyAvg aff).zip (yearlyAvgYoY aff))]) ++
      [PFrame.yearT (yearlyTotal aff)]) _ _ []]
  simp [List.append_assoc]

/-- C7. Running any render routine with any control values — in
particular the Affordability routine with either granularity — leaves
every already-loaded frame unchanged: all reads below the initial heap end
are preserved, because every derived series is built on a fresh frame (or
an explicit copy) and every in-place write goes through a reference
allocated during the run. -/
theorem render_routines_no_mutation (r : Routine) (o : Opts)
    (affRef foodRef : ℕ) (h : Heap) (i : ℕ) (hi : i < h.length) :
    Heap.read (runRoutineHeap r o affRef foodRef h) i = Heap.read h i := by
  cases r with
  | home => rfl
  | itemLevel =>
    show Heap.read (renderItemLevelHeap o.sel foodRef h) i = Heap.read h i
    unfold renderItemLevelHeap
    simp only [Heap.alloc]
    rw [List.append_assoc, List.append_assoc, List.append_assoc,
      List.append_assoc, List.append_assoc, List.append_assoc]
    exact read_append h _ i hi
  | categoryLevel =>
    show Heap.read (renderCategoryHeap o.metric foodRef h) i = Heap.read h i
    unfold renderCategoryHeap
    simp only [Heap.alloc]
    rw [List.append_assoc, List.append_assoc, List.append_assoc,
      List.append_assoc]
    exact read_append h _ i hi
  | affordability =>
    show Heap.read (renderAffordabilityHeap o.gran affRef h) i = Heap.read h i
    cases hg : o.gran with
    | monthly =>
      rw [renderAffordabilityHeap_monthly_eq]
      exact read_append h _ i hi
    | annual =>
      rw [renderAffordabilityHeap_annual_eq]
      exact read_append h _ i hi

/-- Witness for C7: a concrete two-table heap, read back unchanged after
the Monthly affordability run. -/
theorem render_routines_no_mutation_witness :
    Heap.read (runRoutineHeap Routine.affordability
      ⟨Metric.mean, Gran.monthly, "Milk"⟩ 0 1
      [PFrame.affordT affordSample, PFrame.foodT foodSample]) 0 =
      Heap.read [PFrame.affordT affordSample, PFrame.foodT foodSample] 0 :=
  render_routines_no_mutation Routine.affordability
    ⟨Metric.mean, Gran.monthly, "Milk"⟩ 0 1
    [PFrame.affordT affordSample, PFrame.foodT foodSample] 0 (by decide)

end FoodDash
